import Mathlib

/-!
Verification of the ZivyObraz e-paper client (`zivyobraz.py`).

The development shallowly embeds the update-detection protocol
(`ZivyObrazClient.check_for_update`), the payload format detector
(`download_and_display_image`), the three RLE raster decoders
(`decode_rle_z1` / `decode_rle_z2` / `decode_rle_z3`) and the BMP decoder
(`decode_bmp`) as executable Lean functions, and proves the spec's claims
about them.

Bytes are modelled as natural numbers (each element of a payload list is a
Python `bytes` element, hence `< 256`; where a claim needs that bound it is
an explicit hypothesis).  Header values are modelled as the integers that
Python's `int(value)` successfully produced, since every claim about the
poller is conditioned on a successfully parsed response.
-/

/-! ## Constants from `zivyobraz.py` -/

def DISPLAY_WIDTH : Nat := 800

def DISPLAY_HEIGHT : Nat := 480

def DEFAULT_SLEEP_TIME : Int := 120

def COLOR_WHITE : Nat := 255

def COLOR_BLACK : Nat := 0

/-! ## Update poller (`check_for_update`, lines 210-273)

The mutable fields of `ZivyObrazClient` that `check_for_update` reads and
writes are `self.timestamp`, `self.sleep_time` and `self.rotation`. -/

structure ClientState where
  timestamp : Int
  sleep_time : Int
  rotation : Int
  deriving Repr, DecidableEq

/-- Initial state set in `ZivyObrazClient.__init__` (lines 84-86):
`timestamp = 0`, `sleep_time = DEFAULT_SLEEP_TIME`, `rotation = 0`. -/
def initState : ClientState := ⟨0, DEFAULT_SLEEP_TIME, 0⟩

/-- The local variables accumulated by the header loop of
`check_for_update` (lines 240-258): `timestamp_now`, `sleep_time`,
`rotation`. -/
structure ParsedCheck where
  timestamp_now : Int
  sleep_time : Int
  rotation : Int
  deriving Repr, DecidableEq

/-- Python's `str.lower()` restricted to what the header loop needs: ASCII
lowercasing, character by character.  (`String.toLower` computes the same
string but does not reduce in the kernel, so the character-list form is
used.) -/
def pyLower (s : String) : String := ⟨s.data.map Char.toLower⟩

/-- One iteration of the header loop (lines 245-258).  A header is a pair
of its name and the integer value `int(value)` produced for it.  The name
is lowercased before comparison, as in the source
(`header_lower = header.lower()`). -/
def headerStep (acc : ParsedCheck) (hd : String × Int) : ParsedCheck :=
  let header_lower := pyLower hd.1
  if header_lower = "timestamp" then
    { acc with timestamp_now := hd.2 }
  else if header_lower = "sleep" then
    { acc with sleep_time := hd.2 * 60 }
  else if header_lower = "sleepseconds" then
    { acc with sleep_time := hd.2 }
  else if header_lower = "rotate" then
    { acc with rotation := hd.2 }
  else
    acc

/-- The header loop of `check_for_update` (lines 240-258): starts from
`timestamp_now = 0`, `sleep_time = DEFAULT_SLEEP_TIME`, `rotation = 0` and
folds `headerStep` over the headers in iteration order. -/
def parseHeaders (hs : List (String × Int)) : ParsedCheck :=
  hs.foldl headerStep ⟨0, DEFAULT_SLEEP_TIME, 0⟩

/-- Result triple returned by `check_for_update`:
`(needs_update, sleep_time, rotation)`. -/
structure CheckResult where
  needs_update : Bool
  sleep_time : Int
  rotation : Int
  deriving Repr, DecidableEq

/-- Success path of `check_for_update` (lines 240-269): the response had
status 200 and every consumed header value parsed as an integer.  Returns
the result triple together with the updated client state. -/
def check_for_update_success (st : ClientState) (hs : List (String × Int)) :
    CheckResult × ClientState :=
  let p := parseHeaders hs
  if p.timestamp_now ≠ st.timestamp then
    (⟨true, p.sleep_time, p.rotation⟩,
     ⟨p.timestamp_now, p.sleep_time, p.rotation⟩)
  else
    (⟨false, p.sleep_time, p.rotation⟩, st)

/-- Failure path of `check_for_update`: non-200 status (lines 236-238) or
a `requests.RequestException` (lines 271-273).  Both return
`(False, DEFAULT_SLEEP_TIME, 0)` without touching `self`. -/
def check_for_update_failure (st : ClientState) : CheckResult × ClientState :=
  (⟨false, DEFAULT_SLEEP_TIME, 0⟩, st)

/-! ## RLE raster decoders (`decode_rle_z1`/`z2`/`z3`, lines 484-601)

The PIL image is modelled as a total function from coordinates to
grayscale values; only coordinates inside the 800x480 canvas are ever
written or read by the claims.  The final `image.convert('1')` maps 255 to
white and 0 to black and is the identity on the values these decoders
produce, so it is not modelled separately. -/

def Pix : Type := Nat → Nat → Nat

/-- A single PIL pixel assignment `pixels[x, y] = c`. -/
def setPix (p : Pix) (x y c : Nat) : Pix :=
  fun a b => if a = x ∧ b = y then c else p a b

/-- `Image.new('L', (DISPLAY_WIDTH, DISPLAY_HEIGHT), COLOR_WHITE)`. -/
def whiteCanvas : Pix := fun _ _ => COLOR_WHITE

/-- Decoder loop state: the canvas plus the raster cursor `x, y`. -/
structure RState where
  pixels : Pix
  x : Nat
  y : Nat

/-- `_get_color_from_index` (lines 593-601): 0 is white, 1 is black, and
every other color index collapses to black on the BW display. -/
def _get_color_from_index (pixel_color : Nat) : Nat :=
  if pixel_color = 0 then COLOR_WHITE
  else if pixel_color = 1 then COLOR_BLACK
  else COLOR_BLACK

/-- The inner paint loop shared by all three RLE decoders
(`for _ in range(count): ...`, e.g. lines 502-510 for Z1): paint the
current cell when it is inside the canvas, advance the cursor, wrap at the
canvas width, and break out of the run when the cursor passes the last
row. -/
def paintRun (color : Nat) : Nat → RState → RState
  | 0, st => st
  | n + 1, st =>
    let st1 :=
      if st.x < DISPLAY_WIDTH ∧ st.y < DISPLAY_HEIGHT then
        { st with pixels := setPix st.pixels st.x st.y color }
      else st
    if st1.x + 1 ≥ DISPLAY_WIDTH then
      let st2 := { st1 with x := 0, y := st1.y + 1 }
      if st2.y ≥ DISPLAY_HEIGHT then st2 else paintRun color n st2
    else
      paintRun color n { st1 with x := st1.x + 1 }

/-- The `while idx + 1 < len(data) and y < DISPLAY_HEIGHT` loop of
`decode_rle_z1` (lines 495-510): each token is one color byte followed by
one count byte; a trailing odd byte is never consumed. -/
def z1Loop : List Nat → RState → RState
  | pixel_color :: count :: rest, st =>
    if st.y < DISPLAY_HEIGHT then
      z1Loop rest (paintRun (_get_color_from_index pixel_color) count st)
    else st
  | _, st => st

/-- `decode_rle_z1` as a state transformer: skip the 2 magic bytes and run
the token loop on the white canvas from cursor (0, 0). -/
def z1Run (data : List Nat) : RState :=
  z1Loop (data.drop 2) ⟨whiteCanvas, 0, 0⟩

/-- `decode_rle_z1` (lines 484-517): the decoded canvas. -/
def decode_rle_z1 (data : List Nat) : Pix :=
  (z1Run data).pixels

/-- The `while idx < len(data) and y < DISPLAY_HEIGHT` loop of
`decode_rle_z2` (lines 530-547): each byte holds the run length in its low
6 bits and the color index in its top 2 bits. -/
def z2Loop : List Nat → RState → RState
  | compressed :: rest, st =>
    if st.y < DISPLAY_HEIGHT then
      let count := compressed &&& 0b00111111
      let pixel_color := (compressed &&& 0b11000000) >>> 6
      z2Loop rest (paintRun (_get_color_from_index pixel_color) count st)
    else st
  | [], st => st

/-- `decode_rle_z2` (lines 519-554): skip the 2 magic bytes and run the
token loop on the white canvas from cursor (0, 0). -/
def decode_rle_z2 (data : List Nat) : Pix :=
  (z2Loop (data.drop 2) ⟨whiteCanvas, 0, 0⟩).pixels

/-- The `while idx < len(data) and y < DISPLAY_HEIGHT` loop of
`decode_rle_z3` (lines 567-584): each byte holds the run length in its low
5 bits and the color index in its top 3 bits. -/
def z3Loop : List Nat → RState → RState
  | compressed :: rest, st =>
    if st.y < DISPLAY_HEIGHT then
      let count := compressed &&& 0b00011111
      let pixel_color := (compressed &&& 0b11100000) >>> 5
      z3Loop rest (paintRun (_get_color_from_index pixel_color) count st)
    else st
  | [], st => st

/-- `decode_rle_z3` (lines 556-591): skip the 2 magic bytes and run the
token loop on the white canvas from cursor (0, 0). -/
def decode_rle_z3 (data : List Nat) : Pix :=
  (z3Loop (data.drop 2) ⟨whiteCanvas, 0, 0⟩).pixels

/-! ### Derived raster notions used to state the RLE claims -/

/-- Linear raster index of the cursor: row-major position on the canvas. -/
def rasterPos (st : RState) : Nat :=
  st.y * DISPLAY_WIDTH + st.x

/-- The (color byte, count byte) token list a Z1 payload body is read as:
consecutive byte pairs, a trailing odd byte dropped. -/
def z1Tokens : List Nat → List (Nat × Nat)
  | pixel_color :: count :: rest => (pixel_color, count) :: z1Tokens rest
  | _ => []

/-- Sum of the run lengths of a Z1 payload body's tokens. -/
def z1Sum (body : List Nat) : Nat :=
  ((z1Tokens body).map Prod.snd).sum

/-- Color of raster cell `i` in the flat concatenation of the runs of a
token list; `none` when the runs end before reaching `i`. -/
def flatColor : List (Nat × Nat) → Nat → Option Nat
  | [], _ => none
  | (pixel_color, count) :: rest, i =>
    if i < count then some (_get_color_from_index pixel_color)
    else flatColor rest (i - count)

/-- The Z2 stream of claim C2: magic bytes, then tokens
`0b01_000101` (color index 1, run 5) and `0b11_000010` (color index 3,
run 2). -/
def z2ExampleBytes : List Nat := [0x31, 0x5A, 0x45, 0xC2]

/-! ## Format detector (`download_and_display_image`, lines 302-323)

`struct.unpack('<H', data[:2])` reads the first two payload bytes as a
little-endian unsigned 16-bit integer; payloads shorter than 2 bytes, and
headers other than the four recognized magics, abort the attempt with no
decoder tried. -/

inductive FormatTag where
  | bmp
  | z1
  | z2
  | z3
  deriving Repr, DecidableEq

/-- Format selection from the payload (lines 302-323).  `some tag` names
the decoder dispatched to (`decode_bmp`, `decode_rle_z1`, `decode_rle_z2`,
`decode_rle_z3`); `none` is the `return False` taken for short payloads
and unknown magics. -/
def detect_format (data : List Nat) : Option FormatTag :=
  match data with
  | b0 :: b1 :: _ =>
    let header := b0 + 256 * b1
    if header = 0x4D42 then some FormatTag.bmp
    else if header = 0x315A then some FormatTag.z1
    else if header = 0x325A then some FormatTag.z2
    else if header = 0x335A then some FormatTag.z3
    else none
  | _ => none

/-! ## BMP decoder (`decode_bmp`, lines 350-482) -/

/-- Byte access `data[i]`; every use below mirrors a source read that is
guarded by an explicit bounds check, so the default is never observed. -/
def getByte (data : List Nat) (i : Nat) : Nat := data.getD i 0

/-- `struct.unpack('<H', data[i:i+2])`. -/
def readU16 (data : List Nat) (i : Nat) : Nat :=
  getByte data i + 256 * getByte data (i + 1)

/-- `struct.unpack('<I', data[i:i+4])`. -/
def readU32 (data : List Nat) (i : Nat) : Nat :=
  getByte data i + 256 * getByte data (i + 1) + 65536 * getByte data (i + 2)
    + 16777216 * getByte data (i + 3)

/-- `struct.unpack('<i', data[i:i+4])`: the same 32 bits read as a signed
(two's complement) integer. -/
def readI32 (data : List Nat) (i : Nat) : Int :=
  let u := readU32 data i
  if u < 2 ^ 31 then (u : Int) else (u : Int) - 2 ^ 32

/-- Header fields of a BMP payload that survive the guards of
`decode_bmp` (lines 361-383).  `heightField` is the raw signed value of
bytes 22-25; the source's `flip`/`abs(height)` are the derived
`BmpHeader.flip`/`BmpHeader.height` below. -/
structure BmpHeader where
  image_offset : Nat
  header_size : Nat
  width : Nat
  heightField : Int
  depth : Nat
  compression : Nat
  deriving Repr, DecidableEq

/-- `flip = height > 0` (line 386). -/
def BmpHeader.flip (h : BmpHeader) : Bool := decide (0 < h.heightField)

/-- `height = abs(height)` (line 387). -/
def BmpHeader.height (h : BmpHeader) : Nat := h.heightField.natAbs

/-- Header parsing and validation of `decode_bmp` (lines 356-383):
requires at least 54 bytes, the `BM` signature, exactly one color plane
and compression 0 or 3; `none` is the `return None` of each failed
guard. -/
def parseBmpHeader (data : List Nat) : Option BmpHeader :=
  if data.length < 54 then none
  else
    let signature := readU16 data 0
    if signature ≠ 0x4D42 then none
    else
      let image_offset := readU32 data 10
      let header_size := readU32 data 14
      let width := readU32 data 18
      let height := readI32 data 22
      let planes := readU16 data 26
      let depth := readU16 data 28
      let compression := readU32 data 30
      if planes ≠ 1 then none
      else if ¬(compression = 0 ∨ compression = 3) then none
      else some ⟨image_offset, header_size, width, height, depth, compression⟩

/-- Row stride in bytes, padded to a 4-byte boundary (lines 394-397). -/
def bmpRowSize (h : BmpHeader) : Nat :=
  if h.depth < 8 then ((h.width * h.depth + 31) / 32) * 4
  else ((h.width * h.depth / 8 + 3) / 4) * 4

/-- One palette entry (lines 404-412): 4 bytes `b, g, r, reserved` at
`palette_offset + i * 4`, averaged and thresholded at `0x80`; entries
whose bytes fall outside the buffer default to white. -/
def paletteEntry (data : List Nat) (palette_offset i : Nat) : Nat :=
  let idx := palette_offset + i * 4
  if idx + 4 ≤ data.length then
    let b := getByte data idx
    let g := getByte data (idx + 1)
    let r := getByte data (idx + 2)
    let gray := (r + g + b) / 3
    if gray > 0x80 then COLOR_WHITE else COLOR_BLACK
  else COLOR_WHITE

/-- The palette built for indexed images (lines 400-412): `2 ^ depth`
entries starting at `14 + header_size` when `depth <= 8`, else empty. -/
def bmpPalette (data : List Nat) (h : BmpHeader) : List Nat :=
  if h.depth ≤ 8 then
    (List.range (2 ^ h.depth)).map (paletteEntry data (14 + h.header_size))
  else []

/-- One column of the pixel loop (lines 423-476).  The source nests the
column loop inside a per-depth branch; the depth is loop-invariant, so the
branch sits inside the per-column step here.  `palette[pn] if pn <
len(palette) else COLOR_WHITE` is `List.getD`; each byte read is guarded
exactly as in the source, a failed guard leaving the pixel unassigned. -/
def bmpColStep (data : List Nat) (h : BmpHeader) (palette : List Nat)
    (row_offset y : Nat) (px : Pix) (col : Nat) : Pix :=
  if h.depth = 1 then
    let byte_idx := row_offset + col / 8
    if byte_idx < data.length then
      let bit := 7 - col % 8
      let pn := (getByte data byte_idx >>> bit) &&& 1
      setPix px col y (palette.getD pn COLOR_WHITE)
    else px
  else if h.depth = 4 then
    let byte_idx := row_offset + col / 2
    if byte_idx < data.length then
      let pn :=
        if col % 2 = 0 then (getByte data byte_idx >>> 4) &&& 0x0F
        else getByte data byte_idx &&& 0x0F
      setPix px col y (palette.getD pn COLOR_WHITE)
    else px
  else if h.depth = 8 then
    let byte_idx := row_offset + col
    if byte_idx < data.length then
      let pn := getByte data byte_idx
      setPix px col y (palette.getD pn COLOR_WHITE)
    else px
  else if h.depth = 16 then
    let byte_idx := row_offset + col * 2
    if byte_idx + 1 < data.length then
      let lsb := getByte data byte_idx
      let msb := getByte data (byte_idx + 1)
      let r := if h.compression = 0 then (msb &&& 0x7C) <<< 1 else msb &&& 0xF8
      let g :=
        if h.compression = 0 then ((msb &&& 0x03) <<< 6) ||| ((lsb &&& 0xE0) >>> 2)
        else ((msb &&& 0x07) <<< 5) ||| ((lsb &&& 0xE0) >>> 3)
      let b := (lsb &&& 0x1F) <<< 3
      setPix px col y (if r + g + b > 3 * 0x80 then COLOR_WHITE else COLOR_BLACK)
    else px
  else if h.depth = 24 ∨ h.depth = 32 then
    let bytes_per_pixel := h.depth / 8
    let byte_idx := row_offset + col * bytes_per_pixel
    if byte_idx + 2 < data.length then
      let b := getByte data byte_idx
      let g := getByte data (byte_idx + 1)
      let r := getByte data (byte_idx + 2)
      setPix px col y (if r + g + b > 3 * 0x80 then COLOR_WHITE else COLOR_BLACK)
    else px
  else px

/-- One row of the pixel loop (lines 415-421): destination row `y` is the
source row for top-down images and the vertically mirrored row for
bottom-up ones, and the row's bytes start at `image_offset + row *
row_size`. -/
def bmpRowStep (data : List Nat) (h : BmpHeader) (palette : List Nat)
    (px : Pix) (row : Nat) : Pix :=
  let y := if h.flip then h.height - 1 - row else row
  let row_offset := h.image_offset + row * bmpRowSize h
  (List.range h.width).foldl (bmpColStep data h palette row_offset y) px

/-- The full pixel loop of `decode_bmp` (lines 390-476) over the white
initial image. -/
def bmpPixels (data : List Nat) (h : BmpHeader) : Pix :=
  (List.range h.height).foldl (bmpRowStep data h (bmpPalette data h)) whiteCanvas

/-- `decode_bmp` (lines 350-482): `none` on a failed header guard,
otherwise the parsed header and the decoded `width x height` canvas.  (No
statement in the pixel loop can raise, so the source's `except` branch is
unreachable for the modelled domain.) -/
def decode_bmp (data : List Nat) : Option (BmpHeader × Pix) :=
  (parseBmpHeader data).map fun h => (h, bmpPixels data h)

/-! ### Derived per-pixel value used to state the BMP claims -/

/-- The value the column step assigns at column `col` of the row whose
bytes start at `row_offset`, `none` when it assigns nothing: unsupported
depth, or a source byte index that fails its bounds guard. -/
def bmpColValueAt (data : List Nat) (h : BmpHeader) (palette : List Nat)
    (row_offset col : Nat) : Option Nat :=
  if h.depth = 1 then
    let byte_idx := row_offset + col / 8
    if byte_idx < data.length then
      let bit := 7 - col % 8
      let pn := (getByte data byte_idx >>> bit) &&& 1
      some (palette.getD pn COLOR_WHITE)
    else none
  else if h.depth = 4 then
    let byte_idx := row_offset + col / 2
    if byte_idx < data.length then
      let pn :=
        if col % 2 = 0 then (getByte data byte_idx >>> 4) &&& 0x0F
        else getByte data byte_idx &&& 0x0F
      some (palette.getD pn COLOR_WHITE)
    else none
  else if h.depth = 8 then
    let byte_idx := row_offset + col
    if byte_idx < data.length then
      let pn := getByte data byte_idx
      some (palette.getD pn COLOR_WHITE)
    else none
  else if h.depth = 16 then
    let byte_idx := row_offset + col * 2
    if byte_idx + 1 < data.length then
      let lsb := getByte data byte_idx
      let msb := getByte data (byte_idx + 1)
      let r := if h.compression = 0 then (msb &&& 0x7C) <<< 1 else msb &&& 0xF8
      let g :=
        if h.compression = 0 then ((msb &&& 0x03) <<< 6) ||| ((lsb &&& 0xE0) >>> 2)
        else ((msb &&& 0x07) <<< 5) ||| ((lsb &&& 0xE0) >>> 3)
      let b := (lsb &&& 0x1F) <<< 3
      some (if r + g + b > 3 * 0x80 then COLOR_WHITE else COLOR_BLACK)
    else none
  else if h.depth = 24 ∨ h.depth = 32 then
    let bytes_per_pixel := h.depth / 8
    let byte_idx := row_offset + col * bytes_per_pixel
    if byte_idx + 2 < data.length then
      let b := getByte data byte_idx
      let g := getByte data (byte_idx + 1)
      let r := getByte data (byte_idx + 2)
      some (if r + g + b > 3 * 0x80 then COLOR_WHITE else COLOR_BLACK)
    else none
  else none

/-- The value the column step at `(row, col)` of the pixel loop assigns,
`none` when it assigns nothing. -/
def bmpColValue (data : List Nat) (h : BmpHeader) (row col : Nat) : Option Nat :=
  bmpColValueAt data h (bmpPalette data h) (h.image_offset + row * bmpRowSize h) col

/-- The destination row that source row `row` is placed on (line 416-419). -/
def bmpDestRow (h : BmpHeader) (row : Nat) : Nat :=
  if h.flip then h.height - 1 - row else row

/-- The byte index whose bounds guard protects the reads for pixel
`(row, col)`: the last (largest) index the source would read for it. -/
def bmpLastByteIdx (h : BmpHeader) (row col : Nat) : Nat :=
  let row_offset := h.image_offset + row * bmpRowSize h
  if h.depth = 1 then row_offset + col / 8
  else if h.depth = 4 then row_offset + col / 2
  else if h.depth = 8 then row_offset + col
  else if h.depth = 16 then row_offset + col * 2 + 1
  else row_offset + col * (h.depth / 8) + 2

/-- A 54-byte BMP payload: width 2, height -10 (top-down), 1 bpp, one
plane, compression 0, pixel array offset 62 — entirely past the end of
the payload, so every pixel read is out of bounds. -/
def bmp1bppBytes : List Nat :=
  [0x42, 0x4D,
   0, 0, 0, 0,
   0, 0, 0, 0,
   62, 0, 0, 0,
   40, 0, 0, 0,
   2, 0, 0, 0,
   0xF6, 0xFF, 0xFF, 0xFF,
   1, 0,
   1, 0,
   0, 0, 0, 0,
   0, 0, 0, 0, 0, 0, 0, 0, 0, 0, 0, 0, 0, 0, 0, 0, 0, 0, 0, 0]

/-- The header `parseBmpHeader` extracts from `bmp1bppBytes`. -/
def bmp1bppHeader : BmpHeader := ⟨62, 40, 2, -10, 1, 0⟩

/-- Same payload as `bmp1bppBytes` but with height +10 (bottom-up). -/
def bmp1bppPosBytes : List Nat :=
  [0x42, 0x4D,
   0, 0, 0, 0,
   0, 0, 0, 0,
   62, 0, 0, 0,
   40, 0, 0, 0,
   2, 0, 0, 0,
   10, 0, 0, 0,
   1, 0,
   1, 0,
   0, 0, 0, 0,
   0, 0, 0, 0, 0, 0, 0, 0, 0, 0, 0, 0, 0, 0, 0, 0, 0, 0, 0, 0]

/-- The header `parseBmpHeader` extracts from `bmp1bppPosBytes`. -/
def bmp1bppPosHeader : BmpHeader := ⟨62, 40, 2, 10, 1, 0⟩

/-- A 54-byte BMP payload with the unsupported bit depth 2: width 4,
height -2, one plane, compression 0 — it passes every header guard of
`decode_bmp`. -/
def bmpDepth2Bytes : List Nat :=
  [0x42, 0x4D,
   0, 0, 0, 0,
   0, 0, 0, 0,
   70, 0, 0, 0,
   40, 0, 0, 0,
   4, 0, 0, 0,
   0xFE, 0xFF, 0xFF, 0xFF,
   1, 0,
   2, 0,
   0, 0, 0, 0,
   0, 0, 0, 0, 0, 0, 0, 0, 0, 0, 0, 0, 0, 0, 0, 0, 0, 0, 0, 0]

/-- The header `parseBmpHeader` extracts from `bmpDepth2Bytes`. -/
def bmpDepth2Header : BmpHeader := ⟨70, 40, 4, -2, 2, 0⟩

/-! ## Lemmas about the update poller -/

lemma headerStep_timestamp (acc : ParsedCheck) (v : Int) :
    headerStep acc ("timestamp", v) = { acc with timestamp_now := v } := rfl

lemma headerStep_sleep (acc : ParsedCheck) (v : Int) :
    headerStep acc ("sleep", v) = { acc with sleep_time := v * 60 } := rfl

lemma headerStep_sleepseconds (acc : ParsedCheck) (v : Int) :
    headerStep acc ("sleepseconds", v) = { acc with sleep_time := v } := rfl

lemma headerStep_rotate (acc : ParsedCheck) (v : Int) :
    headerStep acc ("rotate", v) = { acc with rotation := v } := rfl

lemma headerStep_timestamp_now_of_ne (acc : ParsedCheck) (hd : String × Int)
    (h : pyLower hd.1 ≠ "timestamp") :
    (headerStep acc hd).timestamp_now = acc.timestamp_now := by
  simp only [headerStep]
  split_ifs with h1 h2 h3 h4
  · exact absurd h1 h
  all_goals rfl

lemma foldl_headerStep_timestamp_now (hs : List (String × Int)) :
    ∀ acc : ParsedCheck, (∀ hd ∈ hs, pyLower hd.1 ≠ "timestamp") →
      (hs.foldl headerStep acc).timestamp_now = acc.timestamp_now := by
  induction hs with
  | nil => intro acc _; rfl
  | cons hd t ih =>
    intro acc h
    rw [List.foldl_cons, ih _ fun x hx => h x (List.mem_cons_of_mem _ hx),
      headerStep_timestamp_now_of_ne acc hd (h hd (List.mem_cons_self _ _))]

lemma check_success_cases (st : ClientState) (hs : List (String × Int)) :
    (check_for_update_success st hs =
        (⟨true, (parseHeaders hs).sleep_time, (parseHeaders hs).rotation⟩,
         ⟨(parseHeaders hs).timestamp_now, (parseHeaders hs).sleep_time,
           (parseHeaders hs).rotation⟩)
      ∧ (parseHeaders hs).timestamp_now ≠ st.timestamp)
    ∨ (check_for_update_success st hs =
        (⟨false, (parseHeaders hs).sleep_time, (parseHeaders hs).rotation⟩, st)
      ∧ (parseHeaders hs).timestamp_now = st.timestamp) := by
  by_cases h : (parseHeaders hs).timestamp_now = st.timestamp
  · exact Or.inr ⟨by simp [check_for_update_success, h], h⟩
  · exact Or.inl ⟨by simp [check_for_update_success, h], h⟩

lemma check_success_needs_update_iff (st : ClientState) (hs : List (String × Int)) :
    (check_for_update_success st hs).1.needs_update = true ↔
      (parseHeaders hs).timestamp_now ≠ st.timestamp := by
  rcases check_success_cases st hs with ⟨he, hne⟩ | ⟨he, heq⟩
  · rw [he]
    simp [hne]
  · rw [he]
    simp [heq]

lemma check_success_sleep_time (st : ClientState) (hs : List (String × Int)) :
    (check_for_update_success st hs).1.sleep_time = (parseHeaders hs).sleep_time := by
  rcases check_success_cases st hs with ⟨he, _⟩ | ⟨he, _⟩ <;> rw [he]

lemma check_success_rotation (st : ClientState) (hs : List (String × Int)) :
    (check_for_update_success st hs).1.rotation = (parseHeaders hs).rotation := by
  rcases check_success_cases st hs with ⟨he, _⟩ | ⟨he, _⟩ <;> rw [he]

lemma check_success_state_timestamp (st : ClientState) (hs : List (String × Int)) :
    (check_for_update_success st hs).2.timestamp = (parseHeaders hs).timestamp_now := by
  rcases check_success_cases st hs with ⟨he, _⟩ | ⟨he, heq⟩ <;> rw [he]
  exact heq.symm

/-! ## Claim theorems about the update poller -/

/-- C1: on a successfully parsed check response, `needs_update` is true
exactly when the parsed timestamp differs from the stored one; the stored
state is replaced wholesale with the parsed values exactly when an update
is needed, is untouched otherwise, and the returned sleep/rotation always
equal the freshly parsed values.  Consequently (last conjunct) a second
successful check reports an update exactly when its parsed timestamp
differs from the first call's parsed timestamp, however the first call
went. -/
theorem check_for_update_success_spec (st : ClientState)
    (hs hs2 : List (String × Int)) :
    ((check_for_update_success st hs).1.needs_update = true ↔
      (parseHeaders hs).timestamp_now ≠ st.timestamp)
    ∧ ((check_for_update_success st hs).1.needs_update = true →
        (check_for_update_success st hs).2 =
          ⟨(parseHeaders hs).timestamp_now, (parseHeaders hs).sleep_time,
            (parseHeaders hs).rotation⟩)
    ∧ ((check_for_update_success st hs).1.needs_update = false →
        (check_for_update_success st hs).2 = st)
    ∧ (check_for_update_success st hs).1.sleep_time = (parseHeaders hs).sleep_time
    ∧ (check_for_update_success st hs).1.rotation = (parseHeaders hs).rotation
    ∧ ((check_for_update_success (check_for_update_success st hs).2 hs2).1.needs_update
        = true ↔ (parseHeaders hs2).timestamp_now ≠ (parseHeaders hs).timestamp_now) := by
  refine ⟨check_success_needs_update_iff st hs, ?_, ?_, check_success_sleep_time st hs,
    check_success_rotation st hs, ?_⟩
  · intro hu
    rcases check_success_cases st hs with ⟨he, _⟩ | ⟨he, _⟩ <;> rw [he]
    rw [he] at hu
    exact absurd hu (by simp)
  · intro hu
    rcases check_success_cases st hs with ⟨he, _⟩ | ⟨he, _⟩ <;> rw [he]
    rw [he] at hu
    exact absurd hu (by simp)
  · rw [check_success_needs_update_iff, check_success_state_timestamp]

/-- Concrete instance of C1: a first nonzero timestamp header triggers an
update from the initial state, and repeating the same value does not. -/
theorem check_for_update_success_spec_witness :
    (check_for_update_success initState [("Timestamp", (5 : Int))]).1.needs_update = true
    ∧ (check_for_update_success
        (check_for_update_success initState [("Timestamp", (5 : Int))]).2
        [("timestamp", (5 : Int))]).1.needs_update = false := by
  have h := check_for_update_success_spec initState [("Timestamp", (5 : Int))]
    [("timestamp", (5 : Int))]
  refine ⟨h.1.mpr (by decide), ?_⟩
  have h2 := h.2.2.2.2.2
  rw [Bool.eq_false_iff]
  intro hx
  exact h2.mp hx (by decide)

/-- C5: a failed check (non-200 status or transport error) returns exactly
`(false, 120, 0)` and leaves the stored state unchanged, so a subsequent
successful check still compares the server timestamp against the
pre-failure stored timestamp. -/
theorem check_for_update_failure_spec (st : ClientState) (hs : List (String × Int)) :
    check_for_update_failure st = (⟨false, 120, 0⟩, st)
    ∧ (check_for_update_failure st).2 = st
    ∧ ((check_for_update_success (check_for_update_failure st).2 hs).1.needs_update = true ↔
        (parseHeaders hs).timestamp_now ≠ st.timestamp) := by
  exact ⟨rfl, rfl, check_success_needs_update_iff st hs⟩

/-- Concrete instance of C5: after a failure at state `⟨5, 300, 2⟩`, a
successful check with timestamp header 5 still reports no update. -/
theorem check_for_update_failure_spec_witness :
    check_for_update_failure ⟨5, 300, 2⟩ = (⟨false, 120, 0⟩, ⟨5, 300, 2⟩)
    ∧ (check_for_update_success (check_for_update_failure ⟨5, 300, 2⟩).2
        [("timestamp", (5 : Int))]).1.needs_update ≠ true := by
  have h := check_for_update_failure_spec ⟨5, 300, 2⟩ [("timestamp", (5 : Int))]
  exact ⟨h.1, fun hx => h.2.2.mp hx (by decide)⟩

/-- C9: a `sleep` header contributes its value times 60, a `sleepseconds`
header contributes its value directly, and with both present the one
later in header iteration order determines the parsed (and returned)
sleep interval. -/
theorem sleep_header_precedence_spec (st : ClientState)
    (hs : List (String × Int)) (m s : Int) :
    (parseHeaders (hs ++ [("sleep", m)])).sleep_time = m * 60
    ∧ (parseHeaders (hs ++ [("sleepseconds", s)])).sleep_time = s
    ∧ (parseHeaders (hs ++ [("sleep", m), ("sleepseconds", s)])).sleep_time = s
    ∧ (parseHeaders (hs ++ [("sleepseconds", s), ("sleep", m)])).sleep_time = m * 60
    ∧ (check_for_update_success st (hs ++ [("sleep", m), ("sleepseconds", s)])).1.sleep_time = s
    ∧ (check_for_update_success st (hs ++ [("sleepseconds", s), ("sleep", m)])).1.sleep_time
        = m * 60 := by
  have h1 : (parseHeaders (hs ++ [("sleep", m)])).sleep_time = m * 60 := by
    rw [parseHeaders, List.foldl_append]
    rfl
  have h2 : (parseHeaders (hs ++ [("sleepseconds", s)])).sleep_time = s := by
    rw [parseHeaders, List.foldl_append]
    rfl
  have h3 : (parseHeaders (hs ++ [("sleep", m), ("sleepseconds", s)])).sleep_time = s := by
    rw [parseHeaders, List.foldl_append]
    rfl
  have h4 : (parseHeaders (hs ++ [("sleepseconds", s), ("sleep", m)])).sleep_time = m * 60 := by
    rw [parseHeaders, List.foldl_append]
    rfl
  exact ⟨h1, h2, h3, h4, by rw [check_success_sleep_time]; exact h3,
    by rw [check_success_sleep_time]; exact h4⟩

/-- Concrete instance of C9: `sleep: 2` then `sleepseconds: 30` yields 30
seconds; the opposite order yields 120 seconds. -/
theorem sleep_header_precedence_spec_witness :
    (parseHeaders [("sleep", (2 : Int)), ("sleepseconds", 30)]).sleep_time = 30
    ∧ (parseHeaders [("sleepseconds", (30 : Int)), ("sleep", 2)]).sleep_time = 2 * 60 :=
  ⟨(sleep_header_precedence_spec initState [] 2 30).2.2.1,
   (sleep_header_precedence_spec initState [] 2 30).2.2.2.1⟩

/-- C10: a successfully parsed response with no `timestamp` header parses
to timestamp 0; such a response reports an update exactly when the stored
timestamp is nonzero, in which case the stored timestamp is reset to 0,
and reports no update (leaving the state untouched) when the stored
timestamp is 0. -/
theorem no_timestamp_header_spec (st : ClientState) (hs : List (String × Int))
    (h : ∀ hd ∈ hs, pyLower hd.1 ≠ "timestamp") :
    (parseHeaders hs).timestamp_now = 0
    ∧ ((check_for_update_success st hs).1.needs_update = true ↔ st.timestamp ≠ 0)
    ∧ (st.timestamp ≠ 0 → (check_for_update_success st hs).2.timestamp = 0)
    ∧ (st.timestamp = 0 →
        (check_for_update_success st hs).1.needs_update = false
        ∧ (check_for_update_success st hs).2 = st) := by
  have h0 : (parseHeaders hs).timestamp_now = 0 :=
    foldl_headerStep_timestamp_now hs _ h
  refine ⟨h0, ?_, ?_, ?_⟩
  · rw [check_success_needs_update_iff, h0]
    exact ne_comm
  · intro _
    rw [check_success_state_timestamp, h0]
  · intro hz
    rcases check_success_cases st hs with ⟨_, hne⟩ | ⟨he, _⟩
    · rw [h0, hz] at hne
      exact absurd rfl hne
    · rw [he]
      exact ⟨rfl, rfl⟩

/-- Concrete instance of C10: a response carrying only `rotate` resets a
stored timestamp of 7 and reports an update. -/
theorem no_timestamp_header_spec_witness :
    (parseHeaders [("rotate", (1 : Int))]).timestamp_now = 0
    ∧ (check_for_update_success ⟨7, 120, 0⟩ [("rotate", (1 : Int))]).1.needs_update = true
    ∧ (check_for_update_success ⟨7, 120, 0⟩ [("rotate", (1 : Int))]).2.timestamp = 0 := by
  have h := no_timestamp_header_spec ⟨7, 120, 0⟩ [("rotate", (1 : Int))] (by decide)
  exact ⟨h.1, h.2.1.mpr (by decide), h.2.2.1 (by decide)⟩

/-! ## Claim theorems about the format detector -/

/-- C7: the format is selected solely from the first two bytes read
little-endian: payloads shorter than 2 bytes fail, the trailing bytes are
irrelevant to the selection, the four magics `0x4D42`/`0x315A`/`0x325A`/
`0x335A` select the BMP/Z1/Z2/Z3 decoders, and every other header value
fails with no canvas produced and no fallback decoder. -/
theorem detect_format_spec (b0 b1 : Nat) (rest rest' : List Nat) :
    detect_format [] = none
    ∧ detect_format [b0] = none
    ∧ detect_format (b0 :: b1 :: rest) = detect_format (b0 :: b1 :: rest')
    ∧ detect_format (0x42 :: 0x4D :: rest) = some FormatTag.bmp
    ∧ detect_format (0x5A :: 0x31 :: rest) = some FormatTag.z1
    ∧ detect_format (0x5A :: 0x32 :: rest) = some FormatTag.z2
    ∧ detect_format (0x5A :: 0x33 :: rest) = some FormatTag.z3
    ∧ (detect_format (b0 :: b1 :: rest) = none ↔
        ¬(b0 + 256 * b1 = 0x4D42 ∨ b0 + 256 * b1 = 0x315A ∨
          b0 + 256 * b1 = 0x325A ∨ b0 + 256 * b1 = 0x335A)) := by
  refine ⟨rfl, rfl, rfl, rfl, rfl, rfl, rfl, ?_⟩
  simp only [detect_format]
  split_ifs with h1 h2 h3 h4 <;> simp_all

/-- Concrete instance of C7: the unrecognized header 0x9999 is rejected. -/
theorem detect_format_spec_witness :
    detect_format [0x99, 0x99, 0, 1, 2] = none :=
  ((detect_format_spec 0x99 0x99 [0, 1, 2] []).2.2.2.2.2.2.2).mpr (by decide)

/-! ## Claim theorems about the Z2 example stream -/

/-- C2 counterexample: the claim says the first 5 pixels are white, but
color index `0b01` maps to black in `_get_color_from_index`, so pixel
(0,0) of the decoded canvas is black, not white. -/
theorem z2_example_counterexample :
    decode_rle_z2 z2ExampleBytes 0 0 = COLOR_BLACK ∧ COLOR_BLACK ≠ COLOR_WHITE :=
  ⟨by decide, by decide⟩

/-- C2 as amended: the stream paints 5 black pixels (color index 1) then
2 black pixels (color index 3) in raster order from (0,0) — both indices
map to black — and every other cell of the canvas is white. -/
theorem z2_example_spec (x y : Nat) (hx : x < DISPLAY_WIDTH) (hy : y < DISPLAY_HEIGHT) :
    decode_rle_z2 z2ExampleBytes x y =
      if y = 0 ∧ x < 7 then COLOR_BLACK else COLOR_WHITE := by
  have hF : decode_rle_z2 z2ExampleBytes =
      setPix (setPix (setPix (setPix (setPix (setPix (setPix whiteCanvas
        0 0 COLOR_BLACK) 1 0 COLOR_BLACK) 2 0 COLOR_BLACK) 3 0 COLOR_BLACK)
        4 0 COLOR_BLACK) 5 0 COLOR_BLACK) 6 0 COLOR_BLACK := by rfl
  rw [hF]
  simp only [setPix, whiteCanvas, COLOR_BLACK, COLOR_WHITE]
  split_ifs <;> omega

/-- Concrete instance of the amended C2 at pixel (0,0). -/
theorem z2_example_spec_witness :
    (0 : Nat) < DISPLAY_WIDTH ∧ (0 : Nat) < DISPLAY_HEIGHT
    ∧ decode_rle_z2 z2ExampleBytes 0 0
        = if (0 : Nat) = 0 ∧ (0 : Nat) < 7 then COLOR_BLACK else COLOR_WHITE :=
  ⟨by decide, by decide, z2_example_spec 0 0 (by decide) (by decide)⟩

/-! ## Lemmas about the shared RLE paint loop -/

lemma paintRun_zero (color : Nat) (st : RState) : paintRun color 0 st = st := rfl

lemma paintRun_succ_wrap_break (color n : Nat) (st : RState)
    (hx : st.x < DISPLAY_WIDTH) (hy : st.y < DISPLAY_HEIGHT)
    (hw : DISPLAY_WIDTH ≤ st.x + 1) (hbr : DISPLAY_HEIGHT ≤ st.y + 1) :
    paintRun color (n + 1) st = ⟨setPix st.pixels st.x st.y color, 0, st.y + 1⟩ := by
  simp [paintRun, hx, hy, hw, hbr]

lemma paintRun_succ_wrap_cont (color n : Nat) (st : RState)
    (hx : st.x < DISPLAY_WIDTH) (hy : st.y < DISPLAY_HEIGHT)
    (hw : DISPLAY_WIDTH ≤ st.x + 1) (hbr : st.y + 1 < DISPLAY_HEIGHT) :
    paintRun color (n + 1) st =
      paintRun color n ⟨setPix st.pixels st.x st.y color, 0, st.y + 1⟩ := by
  simp [paintRun, hx, hy, hw, Nat.not_le.mpr hbr]

lemma paintRun_succ_no_wrap (color n : Nat) (st : RState)
    (hx : st.x < DISPLAY_WIDTH) (hy : st.y < DISPLAY_HEIGHT)
    (hw : st.x + 1 < DISPLAY_WIDTH) :
    paintRun color (n + 1) st =
      paintRun color n ⟨setPix st.pixels st.x st.y color, st.x + 1, st.y⟩ := by
  simp [paintRun, hx, hy, Nat.not_le.mpr hw]

lemma paintRun_spec (color : Nat) :
    ∀ (n : Nat) (st : RState), st.x < DISPLAY_WIDTH → st.y < DISPLAY_HEIGHT →
      (paintRun color n st).x < DISPLAY_WIDTH
      ∧ rasterPos (paintRun color n st) =
          min (rasterPos st + n) (DISPLAY_WIDTH * DISPLAY_HEIGHT)
      ∧ ∀ a b : Nat, a < DISPLAY_WIDTH → b < DISPLAY_HEIGHT →
          (paintRun color n st).pixels a b =
            if rasterPos st ≤ b * DISPLAY_WIDTH + a
                ∧ b * DISPLAY_WIDTH + a < rasterPos st + n
            then color else st.pixels a b := by
  intro n
  induction n with
  | zero =>
    intro st hx hy
    rw [paintRun_zero]
    refine ⟨hx, ?_, fun a b ha hb => (if_neg (by omega)).symm⟩
    simp only [rasterPos, DISPLAY_WIDTH, DISPLAY_HEIGHT] at hx hy ⊢
    omega
  | succ n ih =>
    intro st hx hy
    by_cases hw : DISPLAY_WIDTH ≤ st.x + 1
    · by_cases hbr : DISPLAY_HEIGHT ≤ st.y + 1
      · rw [paintRun_succ_wrap_break color n st hx hy hw hbr]
        refine ⟨by simp [DISPLAY_WIDTH], ?_, ?_⟩
        · simp only [rasterPos, DISPLAY_WIDTH, DISPLAY_HEIGHT] at hx hy hw hbr ⊢
          omega
        · intro a b ha hb
          show setPix st.pixels st.x st.y color a b = _
          simp only [setPix, rasterPos, DISPLAY_WIDTH, DISPLAY_HEIGHT]
            at hx hy hw hbr ha hb ⊢
          split_ifs <;> omega
      · rw [paintRun_succ_wrap_cont color n st hx hy hw (by omega)]
        obtain ⟨ihx, ihpos, ihpix⟩ :=
          ih ⟨setPix st.pixels st.x st.y color, 0, st.y + 1⟩
            (by simp [DISPLAY_WIDTH]) (by simpa using (by omega : st.y + 1 < DISPLAY_HEIGHT))
        refine ⟨ihx, ?_, ?_⟩
        · rw [ihpos]
          simp only [rasterPos, DISPLAY_WIDTH, DISPLAY_HEIGHT] at hx hy hw hbr ⊢
          omega
        · intro a b ha hb
          rw [ihpix a b ha hb]
          simp only [setPix, rasterPos, DISPLAY_WIDTH, DISPLAY_HEIGHT]
            at hx hy hw hbr ha hb ⊢
          split_ifs <;> omega
    · rw [paintRun_succ_no_wrap color n st hx hy (by omega)]
      obtain ⟨ihx, ihpos, ihpix⟩ :=
        ih ⟨setPix st.pixels st.x st.y color, st.x + 1, st.y⟩
          (by simpa using (by omega : st.x + 1 < DISPLAY_WIDTH)) (by simpa using hy)
      refine ⟨ihx, ?_, ?_⟩
      · rw [ihpos]
        simp only [rasterPos, DISPLAY_WIDTH, DISPLAY_HEIGHT] at hx hy hw ⊢
        omega
      · intro a b ha hb
        rw [ihpix a b ha hb]
        simp only [setPix, rasterPos, DISPLAY_WIDTH, DISPLAY_HEIGHT]
          at hx hy hw ha hb ⊢
        split_ifs <;> omega

lemma list_pair_induction {α : Type} (P : List α → Prop) (h0 : P []) (h1 : ∀ a, P [a])
    (h2 : ∀ a b l, P l → P (a :: b :: l)) : ∀ l, P l := by
  have key : ∀ (n : Nat) (l : List α), l.length ≤ n → P l := by
    intro n
    induction n with
    | zero =>
      intro l hl
      rcases l with _ | ⟨a, t⟩
      · exact h0
      · simp at hl
    | succ n ih =>
      intro l hl
      rcases l with _ | ⟨a, t⟩
      · exact h0
      rcases t with _ | ⟨b, t⟩
      · exact h1 a
      · refine h2 a b t (ih t ?_)
        simp only [List.length_cons] at hl
        omega
  exact fun l => key l.length l le_rfl

lemma z1Tokens_cons (pc cnt : Nat) (rest : List Nat) :
    z1Tokens (pc :: cnt :: rest) = (pc, cnt) :: z1Tokens rest := rfl

lemma z1Sum_cons (pc cnt : Nat) (rest : List Nat) :
    z1Sum (pc :: cnt :: rest) = cnt + z1Sum rest := by
  simp [z1Sum, z1Tokens_cons]

lemma flatColor_none (ts : List (Nat × Nat)) :
    ∀ i, (ts.map Prod.snd).sum ≤ i → flatColor ts i = none := by
  induction ts with
  | nil => intro i _; rfl
  | cons t rest ih =>
    intro i hi
    obtain ⟨pc, cnt⟩ := t
    simp only [List.map_cons, List.sum_cons] at hi
    simp only [flatColor]
    rw [if_neg (by omega), ih (i - cnt) (by omega)]

lemma z1Loop_spec :
    ∀ (body : List Nat) (st : RState),
      st.x < DISPLAY_WIDTH → rasterPos st ≤ DISPLAY_WIDTH * DISPLAY_HEIGHT →
      rasterPos (z1Loop body st) =
        min (rasterPos st + z1Sum body) (DISPLAY_WIDTH * DISPLAY_HEIGHT)
      ∧ ∀ a b : Nat, a < DISPLAY_WIDTH → b < DISPLAY_HEIGHT →
          (z1Loop body st).pixels a b =
            if rasterPos st ≤ b * DISPLAY_WIDTH + a then
              (flatColor (z1Tokens body) (b * DISPLAY_WIDTH + a - rasterPos st)).getD
                (st.pixels a b)
            else st.pixels a b := by
  refine list_pair_induction _ ?_ ?_ ?_
  · intro st hx hpos
    have h0 : z1Loop [] st = st := rfl
    constructor
    · rw [h0]
      have hs : z1Sum [] = 0 := rfl
      rw [hs]
      simp only [DISPLAY_WIDTH, DISPLAY_HEIGHT] at hpos ⊢
      omega
    · intro a b ha hb
      rw [h0]
      have ht : z1Tokens [] = [] := rfl
      rw [ht]
      simp only [flatColor, Option.getD_none]
      split_ifs <;> rfl
  · intro a0 st hx hpos
    have h0 : z1Loop [a0] st = st := rfl
    constructor
    · rw [h0]
      have hs : z1Sum [a0] = 0 := rfl
      rw [hs]
      simp only [DISPLAY_WIDTH, DISPLAY_HEIGHT] at hpos ⊢
      omega
    · intro a b ha hb
      rw [h0]
      have ht : z1Tokens [a0] = [] := rfl
      rw [ht]
      simp only [flatColor, Option.getD_none]
      split_ifs <;> rfl
  · intro pc cnt rest IH st hx hpos
    by_cases hy : st.y < DISPLAY_HEIGHT
    · have hstep : z1Loop (pc :: cnt :: rest) st =
          z1Loop rest (paintRun (_get_color_from_index pc) cnt st) := by
        simp [z1Loop, hy]
      obtain ⟨prx, prpos, prpix⟩ := paintRun_spec (_get_color_from_index pc) cnt st hx hy
      have h1pos : rasterPos (paintRun (_get_color_from_index pc) cnt st) ≤
          DISPLAY_WIDTH * DISPLAY_HEIGHT := by
        rw [prpos]
        omega
      obtain ⟨lpos, lpix⟩ := IH (paintRun (_get_color_from_index pc) cnt st) prx h1pos
      constructor
      · rw [hstep, lpos, prpos, z1Sum_cons]
        simp only [DISPLAY_WIDTH, DISPLAY_HEIGHT] at hpos ⊢
        omega
      · intro a b ha hb
        have hiN : b * DISPLAY_WIDTH + a < DISPLAY_WIDTH * DISPLAY_HEIGHT := by
          have ha8 : a < 800 := ha
          have hb4 : b < 480 := hb
          simp only [DISPLAY_WIDTH, DISPLAY_HEIGHT]
          omega
        rw [hstep, lpix a b ha hb, prpix a b ha hb, prpos, z1Tokens_cons]
        simp only [flatColor]
        by_cases h1 : min (rasterPos st + cnt) (DISPLAY_WIDTH * DISPLAY_HEIGHT) ≤
            b * DISPLAY_WIDTH + a
        · have h2 : rasterPos st + cnt ≤ b * DISPLAY_WIDTH + a := by omega
          rw [if_pos h1,
            if_neg (by omega : ¬(rasterPos st ≤ b * DISPLAY_WIDTH + a
              ∧ b * DISPLAY_WIDTH + a < rasterPos st + cnt)),
            if_pos (by omega : rasterPos st ≤ b * DISPLAY_WIDTH + a),
            if_neg (by omega : ¬(b * DISPLAY_WIDTH + a - rasterPos st < cnt))]
          have hidx : b * DISPLAY_WIDTH + a -
              min (rasterPos st + cnt) (DISPLAY_WIDTH * DISPLAY_HEIGHT) =
              b * DISPLAY_WIDTH + a - rasterPos st - cnt := by omega
          rw [hidx]
        · rw [if_neg h1]
          have h2 : b * DISPLAY_WIDTH + a < rasterPos st + cnt := by omega
          by_cases h3 : rasterPos st ≤ b * DISPLAY_WIDTH + a
          · rw [if_pos (And.intro h3 h2), if_pos h3,
              if_pos (by omega : b * DISPLAY_WIDTH + a - rasterPos st < cnt)]
            rfl
          · rw [if_neg (by omega : ¬(rasterPos st ≤ b * DISPLAY_WIDTH + a
                ∧ b * DISPLAY_WIDTH + a < rasterPos st + cnt)),
              if_neg h3]
    · have hstep : z1Loop (pc :: cnt :: rest) st = st := by
        simp [z1Loop, hy]
      constructor
      · rw [hstep]
        simp only [rasterPos, DISPLAY_WIDTH, DISPLAY_HEIGHT] at hx hpos hy ⊢
        omega
      · intro a b ha hb
        rw [hstep,
          if_neg (by
            simp only [rasterPos, DISPLAY_WIDTH, DISPLAY_HEIGHT] at hx hpos hy ha hb ⊢
            omega)]

/-! ## Claim theorems about the Z1 decoder -/

/-- C3: the Z1 decode of any payload is fully characterized by the flat
concatenation of its runs laid out in raster order from (0,0): a canvas
cell gets the color of the run covering its raster index and stays white
when the runs end before reaching it (first two conjuncts, covering the
under-full case and showing a run never wraps back over earlier cells);
the final raster cursor stops at `min(sum, 800*480)`, i.e. exactly at the
end of the canvas — just past pixel (799,479) — whenever the run lengths
sum to at least the canvas size (last two conjuncts).  Decoding is a total
function of the payload, so it terminates on every input. -/
theorem z1_decode_spec (data : List Nat) (a b : Nat)
    (ha : a < DISPLAY_WIDTH) (hb : b < DISPLAY_HEIGHT) :
    decode_rle_z1 data a b =
      (flatColor (z1Tokens (data.drop 2)) (b * DISPLAY_WIDTH + a)).getD COLOR_WHITE
    ∧ (z1Sum (data.drop 2) ≤ b * DISPLAY_WIDTH + a →
        decode_rle_z1 data a b = COLOR_WHITE)
    ∧ rasterPos (z1Run data) =
        min (z1Sum (data.drop 2)) (DISPLAY_WIDTH * DISPLAY_HEIGHT)
    ∧ (DISPLAY_WIDTH * DISPLAY_HEIGHT ≤ z1Sum (data.drop 2) →
        rasterPos (z1Run data) = DISPLAY_WIDTH * DISPLAY_HEIGHT) := by
  obtain ⟨lpos, lpix⟩ := z1Loop_spec (data.drop 2) ⟨whiteCanvas, 0, 0⟩
    (by simp [DISPLAY_WIDTH]) (by simp [rasterPos])
  have hpix := lpix a b ha hb
  have h00 : rasterPos ⟨whiteCanvas, 0, 0⟩ = 0 := rfl
  have hwc : (⟨whiteCanvas, 0, 0⟩ : RState).pixels a b = COLOR_WHITE := rfl
  rw [h00] at hpix lpos
  rw [if_pos (Nat.zero_le _), hwc] at hpix
  rw [Nat.zero_add] at lpos
  simp only [Nat.sub_zero] at hpix
  have h1 : decode_rle_z1 data a b =
      (flatColor (z1Tokens (data.drop 2)) (b * DISPLAY_WIDTH + a)).getD COLOR_WHITE := by
    rw [decode_rle_z1, z1Run, hpix]
  refine ⟨h1, ?_, ?_, ?_⟩
  · intro hs
    rw [h1, flatColor_none _ _ hs]
    rfl
  · rw [z1Run, lpos]
  · intro hs
    rw [z1Run, lpos]
    simp only [DISPLAY_WIDTH, DISPLAY_HEIGHT] at hs ⊢
    omega

/-- Concrete instance of C3: a Z1 payload with a single 5-pixel run leaves
cell (0,1) — raster index 800, beyond the runs — white, and its cursor
stops at raster position 5. -/
theorem z1_decode_spec_witness :
    (0 : Nat) < DISPLAY_WIDTH ∧ (1 : Nat) < DISPLAY_HEIGHT
    ∧ z1Sum ([0x31, 0x5A, 1, 5].drop 2) ≤ 1 * DISPLAY_WIDTH + 0
    ∧ decode_rle_z1 [0x31, 0x5A, 1, 5] 0 1 = COLOR_WHITE := by
  have h := z1_decode_spec [0x31, 0x5A, 1, 5] 0 1 (by decide) (by decide)
  exact ⟨by decide, by decide, by decide, h.2.1 (by decide)⟩

/-! ## Lemmas about the BMP pixel loop -/

lemma bmpColStep_ne (data : List Nat) (h : BmpHeader) (palette : List Nat)
    (ro y : Nat) (px : Pix) (col a b : Nat) (hne : ¬(a = col ∧ b = y)) :
    bmpColStep data h palette ro y px col a b = px a b := by
  simp only [bmpColStep, setPix]
  split_ifs <;> simp_all [setPix]

lemma bmpColStep_self (data : List Nat) (h : BmpHeader) (palette : List Nat)
    (ro y : Nat) (px : Pix) (col : Nat) :
    bmpColStep data h palette ro y px col col y =
      (bmpColValueAt data h palette ro col).getD (px col y) := by
  simp only [bmpColStep, bmpColValueAt, setPix]
  split_ifs <;> simp_all [setPix]

lemma foldl_colStep_row_ne (data : List Nat) (h : BmpHeader) (palette : List Nat)
    (ro y : Nat) (cols : List Nat) :
    ∀ (px : Pix) (a b : Nat), b ≠ y →
      (cols.foldl (bmpColStep data h palette ro y) px) a b = px a b := by
  induction cols with
  | nil => intro px a b _; rfl
  | cons c t ih =>
    intro px a b hb
    rw [List.foldl_cons, ih (bmpColStep data h palette ro y px c) a b hb,
      bmpColStep_ne data h palette ro y px c a b (fun hc => hb hc.2)]

lemma foldl_colStep_col_ge (data : List Nat) (h : BmpHeader) (palette : List Nat)
    (ro y : Nat) :
    ∀ (k : Nat) (px : Pix) (a b : Nat), k ≤ a →
      ((List.range k).foldl (bmpColStep data h palette ro y) px) a b = px a b := by
  intro k
  induction k with
  | zero => intro px a b _; rfl
  | succ k ih =>
    intro px a b hk
    rw [List.range_succ, List.foldl_append]
    simp only [List.foldl_cons, List.foldl_nil]
    rw [bmpColStep_ne data h palette ro y _ k a b (fun hc => by omega),
      ih px a b (by omega)]

lemma foldl_colStep_value (data : List Nat) (h : BmpHeader) (palette : List Nat)
    (ro y : Nat) :
    ∀ (k : Nat) (px : Pix) (col : Nat), col < k →
      ((List.range k).foldl (bmpColStep data h palette ro y) px) col y =
        (bmpColValueAt data h palette ro col).getD (px col y) := by
  intro k
  induction k with
  | zero => intro px col hc; exact absurd hc (Nat.not_lt_zero col)
  | succ k ih =>
    intro px col hc
    rw [List.range_succ, List.foldl_append]
    simp only [List.foldl_cons, List.foldl_nil]
    by_cases hck : col = k
    · subst hck
      rw [bmpColStep_self data h palette ro y _ col,
        foldl_colStep_col_ge data h palette ro y col px col y le_rfl]
    · rw [bmpColStep_ne data h palette ro y _ k col y (fun hcc => hck hcc.1),
        ih px col (by omega)]

lemma bmpRowStep_apply (data : List Nat) (h : BmpHeader) (palette : List Nat)
    (px : Pix) (row a b : Nat) :
    bmpRowStep data h palette px row a b =
      ((List.range h.width).foldl
        (bmpColStep data h palette (h.image_offset + row * bmpRowSize h)
          (bmpDestRow h row)) px) a b := rfl

lemma bmpRowStep_ne (data : List Nat) (h : BmpHeader) (palette : List Nat)
    (px : Pix) (row a b : Nat) (hb : b ≠ bmpDestRow h row) :
    bmpRowStep data h palette px row a b = px a b := by
  rw [bmpRowStep_apply, foldl_colStep_row_ne data h palette _ _ _ px a b hb]

lemma bmpRowStep_at (data : List Nat) (h : BmpHeader) (palette : List Nat)
    (px : Pix) (row col : Nat) (hc : col < h.width) :
    bmpRowStep data h palette px row col (bmpDestRow h row) =
      (bmpColValueAt data h palette (h.image_offset + row * bmpRowSize h) col).getD
        (px col (bmpDestRow h row)) := by
  rw [bmpRowStep_apply, foldl_colStep_value data h palette _ _ h.width px col hc]

lemma bmpDestRow_inj (h : BmpHeader) (r s : Nat) (hr : r < h.height) (hs : s < h.height)
    (he : bmpDestRow h r = bmpDestRow h s) : r = s := by
  by_cases hf : h.flip = true <;> simp only [bmpDestRow, hf, if_true, if_false,
    Bool.false_eq_true] at he <;> omega

lemma foldl_rowStep_ne (data : List Nat) (h : BmpHeader) (palette : List Nat)
    (rows : List Nat) :
    ∀ (px : Pix) (a b : Nat), (∀ r ∈ rows, b ≠ bmpDestRow h r) →
      (rows.foldl (bmpRowStep data h palette) px) a b = px a b := by
  induction rows with
  | nil => intro px a b _; rfl
  | cons r t ih =>
    intro px a b hb
    rw [List.foldl_cons, ih _ a b (fun s hs => hb s (List.mem_cons_of_mem _ hs)),
      bmpRowStep_ne data h palette px r a b (hb r (List.mem_cons_self _ _))]

lemma bmpPixels_fold_at (data : List Nat) (h : BmpHeader) :
    ∀ (k : Nat), k ≤ h.height → ∀ (px : Pix) (r col : Nat), r < k → col < h.width →
      ((List.range k).foldl (bmpRowStep data h (bmpPalette data h)) px) col
          (bmpDestRow h r) =
        (bmpColValue data h r col).getD (px col (bmpDestRow h r)) := by
  intro k
  induction k with
  | zero => intro _ px r col hr _; exact absurd hr (Nat.not_lt_zero r)
  | succ k ih =>
    intro hk px r col hr hc
    rw [List.range_succ, List.foldl_append]
    simp only [List.foldl_cons, List.foldl_nil]
    by_cases hrk : r = k
    · subst hrk
      rw [bmpRowStep_at data h _ _ r col hc,
        foldl_rowStep_ne data h _ (List.range r) px col (bmpDestRow h r)
          (fun s hs he =>
            absurd (bmpDestRow_inj h r s (by omega)
              (by have := List.mem_range.mp hs; omega) he)
              (by have := List.mem_range.mp hs; omega))]
      rfl
    · rw [bmpRowStep_ne data h _ _ k col (bmpDestRow h r)
        (fun he => absurd (bmpDestRow_inj h r k (by omega) (by omega) he) hrk)]
      exact ih (by omega) px r col (by omega) hc

lemma bmpPixels_spec (data : List Nat) (h : BmpHeader) (r col : Nat)
    (hr : r < h.height) (hc : col < h.width) :
    bmpPixels data h col (bmpDestRow h r) = (bmpColValue data h r col).getD COLOR_WHITE := by
  rw [bmpPixels, bmpPixels_fold_at data h h.height le_rfl whiteCanvas r col hr hc]
  rfl

lemma bmpColStep_unsupported (data : List Nat) (h : BmpHeader) (palette : List Nat)
    (ro y : Nat) (px : Pix) (col : Nat)
    (hd : ¬(h.depth = 1 ∨ h.depth = 4 ∨ h.depth = 8 ∨ h.depth = 16
      ∨ h.depth = 24 ∨ h.depth = 32)) :
    bmpColStep data h palette ro y px col = px := by
  push_neg at hd
  obtain ⟨h1, h4, h8, h16, h24, h32⟩ := hd
  simp only [bmpColStep]
  rw [if_neg h1, if_neg h4, if_neg h8, if_neg h16, if_neg (not_or.mpr ⟨h24, h32⟩)]

lemma foldl_colStep_unsupported (data : List Nat) (h : BmpHeader) (palette : List Nat)
    (ro y : Nat)
    (hd : ¬(h.depth = 1 ∨ h.depth = 4 ∨ h.depth = 8 ∨ h.depth = 16
      ∨ h.depth = 24 ∨ h.depth = 32)) :
    ∀ (l : List Nat) (px : Pix), l.foldl (bmpColStep data h palette ro y) px = px := by
  intro l
  induction l with
  | nil => intro px; rfl
  | cons c t ih =>
    intro px
    rw [List.foldl_cons, bmpColStep_unsupported data h palette ro y px c hd, ih px]

lemma bmpPixels_unsupported (data : List Nat) (h : BmpHeader)
    (hd : ¬(h.depth = 1 ∨ h.depth = 4 ∨ h.depth = 8 ∨ h.depth = 16
      ∨ h.depth = 24 ∨ h.depth = 32)) :
    ∀ a b : Nat, bmpPixels data h a b = COLOR_WHITE := by
  have hrow : ∀ (px : Pix) (row : Nat),
      bmpRowStep data h (bmpPalette data h) px row = px := fun px row =>
    foldl_colStep_unsupported data h (bmpPalette data h)
      (h.image_offset + row * bmpRowSize h) (bmpDestRow h row) hd (List.range h.width) px
  have hfold : ∀ (l : List Nat) (px : Pix),
      l.foldl (bmpRowStep data h (bmpPalette data h)) px = px := by
    intro l
    induction l with
    | nil => intro px; rfl
    | cons r t ih => intro px; rw [List.foldl_cons, hrow px r, ih px]
  intro a b
  rw [bmpPixels, hfold (List.range h.height) whiteCanvas]
  rfl

lemma bmpColValue_none_of_oob (data : List Nat) (h : BmpHeader) (row col : Nat)
    (hdepth : h.depth = 1 ∨ h.depth = 4 ∨ h.depth = 8 ∨ h.depth = 16
      ∨ h.depth = 24 ∨ h.depth = 32)
    (hoob : data.length ≤ bmpLastByteIdx h row col) :
    bmpColValue data h row col = none := by
  rcases hdepth with h1 | h4 | h8 | h16 | h24 | h32
  · simp [bmpColValue, bmpColValueAt, bmpLastByteIdx, h1] at hoob ⊢
    omega
  · simp [bmpColValue, bmpColValueAt, bmpLastByteIdx, h4] at hoob ⊢
    omega
  · simp [bmpColValue, bmpColValueAt, bmpLastByteIdx, h8] at hoob ⊢
    omega
  · simp [bmpColValue, bmpColValueAt, bmpLastByteIdx, h16] at hoob ⊢
    omega
  · simp [bmpColValue, bmpColValueAt, bmpLastByteIdx, h24] at hoob ⊢
    omega
  · simp [bmpColValue, bmpColValueAt, bmpLastByteIdx, h32] at hoob ⊢
    omega

/-! ## Claim theorems about the BMP decoder -/

/-- C4: for a payload whose header passes all guards, the decoded image
height is the absolute value of the signed height field; a negative
height field means no flip, so output row `r` holds the pixels decoded
from source row `r`; a positive height field means a vertical flip, so
output row `height - 1 - r` holds the pixels decoded from source row `r`
(in particular output row 0 holds the last source row). -/
theorem bmp_height_flip_spec (data : List Nat) (h : BmpHeader)
    (hp : parseBmpHeader data = some h) (r col : Nat)
    (hr : r < h.height) (hc : col < h.width) :
    h.height = h.heightField.natAbs
    ∧ (h.heightField < 0 →
        bmpPixels data h col r = (bmpColValue data h r col).getD COLOR_WHITE)
    ∧ (0 < h.heightField →
        bmpPixels data h col (h.height - 1 - r) =
          (bmpColValue data h r col).getD COLOR_WHITE) := by
  refine ⟨rfl, ?_, ?_⟩
  · intro hneg
    have hflip : bmpDestRow h r = r := by
      have hf : h.flip = false := by
        simp only [BmpHeader.flip, decide_eq_false_iff_not]
        omega
      simp [bmpDestRow, hf]
    have hpix := bmpPixels_spec data h r col hr hc
    rw [hflip] at hpix
    exact hpix
  · intro hposf
    have hflip : bmpDestRow h r = h.height - 1 - r := by
      have hf : h.flip = true := by
        simp only [BmpHeader.flip, decide_eq_true_eq]
        exact hposf
      simp [bmpDestRow, hf]
    have hpix := bmpPixels_spec data h r col hr hc
    rw [hflip] at hpix
    exact hpix

/-- Concrete instance of C4: a 1 bpp BMP with height field -10 places
source row 0 on output row 0, and one with height field +10 places source
row 0 on output row 9. -/
theorem bmp_height_flip_spec_witness :
    parseBmpHeader bmp1bppBytes = some bmp1bppHeader
    ∧ bmp1bppHeader.heightField < 0
    ∧ bmpPixels bmp1bppBytes bmp1bppHeader 0 0 =
        (bmpColValue bmp1bppBytes bmp1bppHeader 0 0).getD COLOR_WHITE
    ∧ parseBmpHeader bmp1bppPosBytes = some bmp1bppPosHeader
    ∧ (0 : Int) < bmp1bppPosHeader.heightField
    ∧ bmpPixels bmp1bppPosBytes bmp1bppPosHeader 0 (bmp1bppPosHeader.height - 1 - 0) =
        (bmpColValue bmp1bppPosBytes bmp1bppPosHeader 0 0).getD COLOR_WHITE := by
  have hn := bmp_height_flip_spec bmp1bppBytes bmp1bppHeader (by decide) 0 0
    (by decide) (by decide)
  have hpos := bmp_height_flip_spec bmp1bppPosBytes bmp1bppPosHeader (by decide) 0 0
    (by decide) (by decide)
  exact ⟨by decide, by decide, hn.2.1 (by decide), by decide, by decide,
    hpos.2.2 (by decide)⟩

/-- C6 counterexample: this payload declares bit depth 2 — outside the
supported set — yet passes every header guard and `decode_bmp` returns a
pixel buffer instead of failing. -/
theorem bmp_depth2_counterexample :
    readU16 bmpDepth2Bytes 28 = 2 ∧ (decode_bmp bmpDepth2Bytes).isSome = true :=
  ⟨by decide, by decide⟩

/-- C6 as amended: a BMP payload that passes the signature, length,
planes and compression checks but declares a bit depth outside
{1, 4, 8, 16, 24, 32} decodes successfully — no pixel branch runs, so the
result is the all-white `width x |height|` buffer, not a decode error. -/
theorem bmp_unsupported_depth_spec (data : List Nat) (h : BmpHeader)
    (hp : parseBmpHeader data = some h)
    (hd : ¬(h.depth = 1 ∨ h.depth = 4 ∨ h.depth = 8 ∨ h.depth = 16
      ∨ h.depth = 24 ∨ h.depth = 32)) :
    decode_bmp data = some (h, bmpPixels data h)
    ∧ ∀ a b : Nat, bmpPixels data h a b = COLOR_WHITE := by
  constructor
  · rw [decode_bmp, hp]
    rfl
  · exact bmpPixels_unsupported data h hd

/-- Concrete instance of the amended C6 on the depth-2 payload. -/
theorem bmp_unsupported_depth_spec_witness :
    parseBmpHeader bmpDepth2Bytes = some bmpDepth2Header
    ∧ decode_bmp bmpDepth2Bytes =
        some (bmpDepth2Header, bmpPixels bmpDepth2Bytes bmpDepth2Header)
    ∧ bmpPixels bmpDepth2Bytes bmpDepth2Header 0 0 = COLOR_WHITE := by
  have h := bmp_unsupported_depth_spec bmpDepth2Bytes bmpDepth2Header
    (by decide) (by decide)
  exact ⟨by decide, h.1, h.2 0 0⟩

/-- C8: for a payload whose header passes all guards at a supported bit
depth, a pixel whose source bytes would be read past the end of the
buffer is white in the output (its bounds guard fails, leaving the white
initial fill), while the decode as a whole still succeeds; no modelled
read is out of bounds, since every read is behind exactly the source's
guard. -/
theorem bmp_truncation_spec (data : List Nat) (h : BmpHeader)
    (hp : parseBmpHeader data = some h) (r col : Nat)
    (hr : r < h.height) (hc : col < h.width)
    (hdepth : h.depth = 1 ∨ h.depth = 4 ∨ h.depth = 8 ∨ h.depth = 16
      ∨ h.depth = 24 ∨ h.depth = 32)
    (hoob : data.length ≤ bmpLastByteIdx h r col) :
    bmpPixels data h col (bmpDestRow h r) = COLOR_WHITE
    ∧ decode_bmp data = some (h, bmpPixels data h) := by
  constructor
  · rw [bmpPixels_spec data h r col hr hc,
      bmpColValue_none_of_oob data h r col hdepth hoob]
    rfl
  · rw [decode_bmp, hp]
    rfl

/-- Concrete instance of C8: the 1 bpp payload whose pixel array offset
lies past the payload end decodes with pixel (0,0) white. -/
theorem bmp_truncation_spec_witness :
    parseBmpHeader bmp1bppBytes = some bmp1bppHeader
    ∧ bmp1bppBytes.length ≤ bmpLastByteIdx bmp1bppHeader 0 0
    ∧ bmpPixels bmp1bppBytes bmp1bppHeader 0 (bmpDestRow bmp1bppHeader 0) = COLOR_WHITE
    ∧ decode_bmp bmp1bppBytes = some (bmp1bppHeader, bmpPixels bmp1bppBytes bmp1bppHeader) := by
  have h := bmp_truncation_spec bmp1bppBytes bmp1bppHeader (by decide) 0 0
    (by decide) (by decide) (by decide) (by decide)
  exact ⟨by decide, by decide, h.1, h.2⟩
